import Mathlib

/-
Verification of the wass-mcp multi-scanner orchestration core.

Shallow embedding of the Go source, principally:
  pkg/tools/wrapper.go        (interceptor, orchestrator, merge, pagination)
  pkg/tools/history/history.go (history handler)
  pkg/storage                  (SQLite-backed execution ledger, modelled in memory)
  pkg/models                   (ToolExecution record)

Machine integers in the source are Go int/int64 over values that validation
keeps small and non-negative; they are modelled as Nat. Durations are
nanoseconds (Go time.Duration), timestamps are abstract Nat instants, and
the RFC1123-formatted generation date is an opaque String input.
-/

/-! ## Pagination Window (applyPagination, wrapper.go lines 295-325) -/

/-- Go strings.Repeat for a single character. -/
def strRepeat (c : Char) (n : Nat) : String :=
  String.mk (List.replicate n c)

/-- Go strings.Split(s, sep) for the single-character separator used by the
pagination code (sep is the newline), on character lists. -/
def splitLinesList : List Char → List (List Char)
  | [] => [[]]
  | c :: rest =>
    let r := splitLinesList rest
    if c = '\n' then [] :: r
    else (c :: r.headD []) :: r.tail

/-- Go strings.Split(output, newline). -/
def splitLines (s : String) : List String :=
  (splitLinesList s.data).map String.mk

/-- Modelled from the spec: the constant MaxDefaultLines of pkg/types, whose
defining file is absent from the sources; the spec (section 4.2) and
pkg/types/constants_test.go both fix it at 200. -/
def MaxDefaultLines : Nat := 200

/-- Modelled from the spec: the constant MaxAllowedLines of pkg/types (absolute
pagination cap enforced by input validation); pinned to 100000 by the spec and
by pkg/types/constants_test.go, and used literally in the validate tag of
fullscan Input. -/
def MaxAllowedLines : Nat := 100000

/-- The maxLines substitution at the top of applyPagination:
if maxLines == 0, substitute types.MaxDefaultLines. -/
def effMaxLines (maxLines : Nat) : Nat :=
  if maxLines = 0 then MaxDefaultLines else maxLines

/-- The windowing core of applyPagination: the selected lines plus the
truncated flag, mirroring the if/else-if chain of wrapper.go lines 303-314.
Go slice lines[offset:end] is (drop offset).take (end - offset). -/
def paginationPair (output : String) (maxLines offset : Nat) : List String × Bool :=
  if 0 < offset ∧ offset < (splitLines output).length then
    if offset + effMaxLines maxLines < (splitLines output).length then
      (((splitLines output).drop offset).take (effMaxLines maxLines), true)
    else ((splitLines output).drop offset, false)
  else if effMaxLines maxLines < (splitLines output).length then
    ((splitLines output).take (effMaxLines maxLines), true)
  else ((splitLines output), false)

/-- applyPagination (wrapper.go lines 295-325): rejoins the window and, when
truncated or offset > 0, prepends the banner built by the Sprintf at line 320
with arguments offset+1, offset+len(lines), totalLines. -/
def applyPagination (output : String) (maxLines offset : Nat) : String :=
  (if (paginationPair output maxLines offset).2 = true ∨ 0 < offset then
    "[Showing lines " ++ toString (offset + 1) ++ "-" ++
      toString (offset + (paginationPair output maxLines offset).1.length) ++ " of " ++
      toString (splitLines output).length ++
      " lines. Use offset parameter to view more.]\n\n"
   else "") ++
  String.intercalate "\n" (paginationPair output maxLines offset).1

/-- A 50-line blob used to exercise end-to-end pagination scenario D. -/
def wBlob50 : String :=
  String.intercalate "\n" ((List.range 50).map (fun i => "L" ++ toString i))

/-! ## Scanner capability and parallel orchestrator (wrapper.go lines 96-227) -/

/-- tools.ScanParams: the immutable scan target passed to every scanner. -/
structure ScanParams where
  host : String
  port : Nat
  vhost : String

/-- tools.ScanResult: output plus optional error, both possibly populated.
A Go error value is modelled by its message text. -/
structure ScanResult where
  output : String
  error : Option String

/-- tools.Scanner: identity, availability and the scan operation. -/
structure Scanner where
  name : String
  isAvailable : Bool
  scan : ScanParams → ScanResult

/-- The availability filter loop of Register (wrapper.go lines 113-122). -/
def availableOf (scanners : List Scanner) : List Scanner :=
  scanners.filter (·.isAvailable)

/-- Register (wrapper.go lines 112-128), reduced to its observable effect on
the scanner set: keep the available scanners, or fail with the availability
error when none are available. -/
def registerFilter (scanners : List Scanner) : Except String (List Scanner) :=
  if (availableOf scanners).isEmpty then Except.error "no scanner binaries available"
  else Except.ok (availableOf scanners)

/-- scannerResult (wrapper.go lines 97-102): name, output, wall-time duration
in nanoseconds, error. -/
structure ScannerResult where
  name : String
  output : String
  duration : Nat
  error : Option String
deriving DecidableEq

/-- The record one fan-out task sends on the results channel
(wrapper.go lines 196-205). The measured wall time is an arbitrary
environment-supplied value, abstracted as a function of the scanner name. -/
def scanRecord (params : ScanParams) (durOf : String → Nat) (s : Scanner) : ScannerResult :=
  { name := s.name
    output := (s.scan params).output
    duration := durOf s.name
    error := (s.scan params).error }

/-- runScannersParallel (wrapper.go lines 187-227): one task per scanner puts
exactly one record on the channel; the collection loop reads until the channel
closes after all tasks finish. Join order is completion order, so the
collected list is some permutation of the per-scanner records. -/
def RunCollects (scanners : List Scanner) (params : ScanParams) (durOf : String → Nat)
    (results : List ScannerResult) : Prop :=
  results.Perm (scanners.map (scanRecord params durOf))

/-! ## Report merge (mergeResults, wrapper.go lines 230-292) -/

def reportLineWidth : Nat := 78

/-- separator (wrapper.go line 233). -/
def separator : String := "=" ++ strRepeat '=' reportLineWidth

/-- dashLine (wrapper.go line 234). -/
def dashLine : String := "-" ++ strRepeat '-' reportLineWidth

/-- Go fmt width directive %-10s: left-justify, pad with spaces to the width. -/
def padRight (s : String) (width : Nat) : String :=
  s ++ strRepeat ' ' (width - s.length)

/-- Go formats Duration.Seconds() with %.2f; modelled by rounding the
nanosecond count to centiseconds (half up) and printing two decimals. -/
def fmtSeconds2 (ns : Nat) : String :=
  let cs := (ns + 5000000) / 10000000
  toString (cs / 100) ++ "." ++ (if cs % 100 < 10 then "0" else "") ++ toString (cs % 100)

/-- The status word of the summary loop (wrapper.go lines 253-259). -/
def statusOf (r : ScannerResult) : String :=
  if r.error.isSome then "FAILED" else "SUCCESS"

/-- One summary line (wrapper.go line 260). -/
def summaryLine (r : ScannerResult) : String :=
  "  " ++ padRight r.name 10 ++ ": " ++ statusOf r ++ " (" ++ fmtSeconds2 r.duration ++ "s)\n"

/-- One per-scanner section (wrapper.go lines 268-285). -/
def sectionFor (r : ScannerResult) : String :=
  separator ++ "\n" ++
  "                    " ++ r.name.toUpper ++ " RESULTS\n" ++
  separator ++ "\n\n" ++
  (match r.error with
   | some msg =>
     "ERROR: " ++ msg ++ "\n\n" ++
     (if r.output = "" then "" else "Output:\n" ++ r.output ++ "\n")
   | none => r.output.trim ++ "\n") ++
  "\n"

def successCount (results : List ScannerResult) : Nat :=
  (results.filter (fun r => r.error.isNone)).length

def failCount (results : List ScannerResult) : Nat :=
  (results.filter (fun r => r.error.isSome)).length

def totalDuration (results : List ScannerResult) : Nat :=
  (results.map (·.duration)).sum

/-- The per-element WriteString loops of mergeResults, as concatenation. -/
def concatMap {α : Type} (f : α → String) : List α → String
  | [] => ""
  | x :: xs => f x ++ concatMap f xs

/-- Report header (wrapper.go lines 236-245), up to and including the dash
line under SCAN SUMMARY. The Date line takes the RFC1123-formatted value of
time.Now() as the dateStr input. -/
def mergeHeader (targetURL dateStr : String) : String :=
  separator ++ "\n" ++
  "                    FULL SECURITY SCAN REPORT\n" ++
  separator ++ "\n" ++
  "Target: " ++ targetURL ++ "\n" ++
  "Date: " ++ dateStr ++ "\n" ++
  separator ++ "\n\n" ++
  "SCAN SUMMARY\n" ++
  dashLine ++ "\n"

/-- Totals block (wrapper.go lines 263-265). -/
def mergeTotals (results : List ScannerResult) : String :=
  "\nTotal scanners: " ++ toString results.length ++ " | Successful: " ++
    toString (successCount results) ++ " | Failed: " ++ toString (failCount results) ++ "\n" ++
  "Total scan time: " ++ fmtSeconds2 (totalDuration results) ++ "s\n" ++
  "\n"

/-- Closing marker (wrapper.go lines 287-289). -/
def mergeFooter : String :=
  separator ++ "\n" ++
  "                    END OF REPORT\n" ++
  separator ++ "\n"

/-- mergeResults (wrapper.go lines 230-292) in builder order: header, summary
lines, totals, per-scanner sections, footer. -/
def mergeResults (targetURL dateStr : String) (results : List ScannerResult) : String :=
  mergeHeader targetURL dateStr ++ concatMap summaryLine results ++ mergeTotals results ++
    concatMap sectionFor results ++ mergeFooter

/-- Everything the merge writes before the generation timestamp: a function of
the target only. -/
def mergeBeforeDate (targetURL : String) : String :=
  separator ++ "\n" ++
  "                    FULL SECURITY SCAN REPORT\n" ++
  separator ++ "\n" ++
  "Target: " ++ targetURL ++ "\n" ++
  "Date: "

/-- Everything the merge writes after the generation timestamp: a function of
the collected results only. -/
def mergeAfterDate (results : List ScannerResult) : String :=
  "\n" ++
  separator ++ "\n\n" ++
  "SCAN SUMMARY\n" ++
  dashLine ++ "\n" ++
  concatMap summaryLine results ++ mergeTotals results ++
    concatMap sectionFor results ++ mergeFooter

/-- Substring containment: s contains pat as a contiguous substring. -/
def ContainsStr (s pat : String) : Prop :=
  ∃ pre post, s = pre ++ pat ++ post

/-! ## Full scan handler (FullScanHandler, wrapper.go lines 80-184) -/

def defaultHost : String := "localhost"

def defaultPort : Nat := 80

/-- fullscan.Input (wrapper.go lines 88-94). Ports, line limits and offsets
are validated non-negative Go ints, modelled as Nat. -/
structure Input where
  host : String
  port : Nat
  vhost : String
  maxLines : Nat
  offset : Nat

/-- The validate tags of Input: host omitempty hostname-or-ip (the library
pattern abstracted as the hostOk predicate), port at most 65535, max_lines at
most 100000; the min=0 bounds are automatic for Nat. -/
def validInput (hostOk : String → Bool) (i : Input) : Bool :=
  (i.host == "" || hostOk i.host) && decide (i.port ≤ 65535) &&
    decide (i.maxLines ≤ MaxAllowedLines)

/-- net.JoinHostPort: bracket the host when it holds a colon. -/
def joinHostPort (host : String) (port : Nat) : String :=
  if host.contains ':' then "[" ++ host ++ "]:" ++ toString port
  else host ++ ":" ++ toString port

/-- Host defaulting (wrapper.go lines 153-156). -/
def hostOf (i : Input) : String := if i.host = "" then defaultHost else i.host

/-- Port defaulting (wrapper.go lines 158-161). -/
def portOf (i : Input) : Nat := if i.port = 0 then defaultPort else i.port

/-- targetURL (wrapper.go line 163). -/
def targetOf (i : Input) : String := "http://" ++ joinHostPort (hostOf i) (portOf i)

/-- FullScanHandler (wrapper.go lines 148-184): validate, default the target,
fan out (the collected records are supplied, their order being completion
order), merge, paginate. The validator failure message is abstracted to its
fixed prelude. -/
def fullScanHandler (hostOk : String → Bool) (dateStr : String) (input : Input)
    (results : List ScannerResult) : Except String String :=
  if validInput hostOk input = false then Except.error "validation error"
  else Except.ok (applyPagination (mergeResults (targetOf input) dateStr results)
    input.maxLines input.offset)

/-- Witness scanner: available, succeeds. -/
def wScanner1 : Scanner :=
  { name := "mock1", isAvailable := true
    scan := fun _ => { output := "findings A", error := none } }

/-- Witness scanner: not available. -/
def wScanner2 : Scanner :=
  { name := "mock2", isAvailable := false
    scan := fun _ => { output := "", error := none } }

def wParams : ScanParams := { host := "localhost", port := 80, vhost := "" }

def wDurOf : String → Nat := fun _ => 1500000000

/-- The collected records for the witness run, in submission order. -/
def wCollected : List ScannerResult :=
  (availableOf [wScanner1, wScanner2]).map (scanRecord wParams wDurOf)

/-- Witness input for the aggregate handler. -/
def wScanInput : Input :=
  { host := "localhost", port := 80, vhost := "", maxLines := 0, offset := 0 }

/-- Witness record of a failed scanner carrying leftover output. -/
def wFailResult : ScannerResult :=
  { name := "mockb", output := "leftover output", duration := 500000000
    error := some "connection timeout" }

/-! ## Execution record and logging interceptor (models, wrapper.go lines 14-60) -/

/-- models.ToolExecution: the persisted execution record. DeletedAt is the
gorm soft-delete marker; JSON serializations are opaque strings; timestamps
are abstract Nat instants. -/
structure ToolExecution where
  id : Nat
  createdAt : Nat
  deletedAt : Option Nat
  sessionID : String
  toolName : String
  inputJSON : String
  outputJSON : String
  errorMessage : String
  durationMs : Nat
  success : Bool
deriving DecidableEq

/-- The record construction of WrapToolHandler (wrapper.go lines 37-50).
The wrapped handler returns (result, output, error); result is modelled by
its JSON serialization when non-nil, the error by its message text when
non-nil. Success is err == nil; on error the message is copied verbatim; on
success with a non-nil result the serialized result is stored. -/
def wrapBuildRecord (sessionID toolName inputJSON : String) (durationMs : Nat)
    (result : Option String) (err : Option String) : ToolExecution :=
  let exec : ToolExecution :=
    { id := 0, createdAt := 0, deletedAt := none
      sessionID := sessionID, toolName := toolName, inputJSON := inputJSON
      outputJSON := "", errorMessage := "", durationMs := durationMs
      success := err.isNone }
  match err with
  | some e => { exec with errorMessage := e }
  | none =>
    match result with
    | some marshalled => { exec with outputJSON := marshalled }
    | none => exec

/-- WrapToolHandler (wrapper.go lines 14-60): invoke the wrapped handler,
build the execution record, pass the handler triple through unchanged. The
asynchronous CreateToolExecution call persists exactly this record. -/
def wrapToolHandler (sessionID toolName inputJSON : String) (durationMs : Nat)
    (handler : Unit → Option String × String × Option String) :
    (Option String × String × Option String) × ToolExecution :=
  let out := handler ()
  (out, wrapBuildRecord sessionID toolName inputJSON durationMs out.1 out.2.2)

/-! ## Execution ledger (storage SQLiteStorage, modelled in memory) -/

/-- The ledger state: the stored rows in insertion (primary-key) order plus
the next auto-increment identifier. -/
structure DB where
  records : List ToolExecution
  nextId : Nat

def emptyDB : DB := { records := [], nextId := 1 }

/-- Rows visible to gorm reads: soft-deleted rows are excluded from every
query on a gorm.DeletedAt model. -/
def activeRecords (db : DB) : List ToolExecution :=
  db.records.filter (·.deletedAt.isNone)

/-- CreateToolExecution: assign the auto-increment identifier and the
creation timestamp, append the row. Returns the new state and the assigned
identifier. -/
def createToolExecution (db : DB) (exec : ToolExecution) (now : Nat) : DB × Nat :=
  let assigned := { exec with id := db.nextId, createdAt := now, deletedAt := none }
  ({ records := db.records ++ [assigned], nextId := db.nextId + 1 }, db.nextId)

/-- Stable insertion step for ORDER BY created_at DESC: the new element goes
before the first element whose creation time does not exceed it, so rows with
equal timestamps keep their storage (identifier-ascending) order. -/
def insertByCreatedDesc (r : ToolExecution) : List ToolExecution → List ToolExecution
  | [] => [r]
  | x :: xs =>
    if x.createdAt ≤ r.createdAt then r :: x :: xs
    else x :: insertByCreatedDesc r xs

/-- ORDER BY created_at DESC as a stable sort over storage order; the query
names no tie-breaking column, so equal timestamps come back in scan
(identifier-ascending) order. -/
def sortByCreatedDesc : List ToolExecution → List ToolExecution
  | [] => []
  | x :: xs => insertByCreatedDesc x (sortByCreatedDesc xs)

/-- GetToolExecution (storage part_003 lines 47-54): primary-key lookup over
non-deleted rows; None models gorm ErrRecordNotFound. -/
def getToolExecution (db : DB) (id : Nat) : Option ToolExecution :=
  (activeRecords db).find? (fun r => r.id == id)

/-- GetToolExecutions (storage part_003 lines 56-71): count all non-deleted
rows, order by created_at descending, then apply OFFSET and LIMIT, each only
when positive. -/
def getToolExecutions (db : DB) (limit offset : Nat) : List ToolExecution × Nat :=
  let total := (activeRecords db).length
  let sorted := sortByCreatedDesc (activeRecords db)
  let afterOffset := sorted.drop offset
  let limited := if limit = 0 then afterOffset else afterOffset.take limit
  (limited, total)

/-- GetToolExecutionsBySession (storage part_003 lines 73-80). -/
def getToolExecutionsBySession (db : DB) (sessionID : String) : List ToolExecution :=
  sortByCreatedDesc ((activeRecords db).filter (·.sessionID == sessionID))

/-- GetToolExecutionsByTool (storage part_003 lines 82-92). -/
def getToolExecutionsByTool (db : DB) (toolName : String) (limit : Nat) :
    List ToolExecution :=
  let sorted := sortByCreatedDesc ((activeRecords db).filter (·.toolName == toolName))
  if limit = 0 then sorted else sorted.take limit

/-- DeleteToolExecution (storage part_003 lines 94-96): gorm soft delete sets
deleted_at on the matching non-deleted row. -/
def deleteToolExecution (db : DB) (id now : Nat) : DB :=
  { db with records := db.records.map (fun r =>
      if r.id == id && r.deletedAt.isNone then { r with deletedAt := some now } else r) }

/-- DeleteAllToolExecutions (storage part_003 lines 98-100). -/
def deleteAllToolExecutions (db : DB) (now : Nat) : DB :=
  { db with records := db.records.map (fun r =>
      if r.deletedAt.isNone then { r with deletedAt := some now } else r) }

/-- Well-formedness the ledger maintains: every stored identifier is below
the auto-increment counter, and identifiers are unique. -/
def WFDB (db : DB) : Prop :=
  (∀ r ∈ db.records, r.id < db.nextId) ∧ (db.records.map (·.id)).Nodup

/-! ## History tool (pkg/tools/history/history.go) -/

/-- history.Input (history.go lines 16-21). -/
structure HistoryInput where
  action : String
  id : Nat
  limit : Nat
  offset : Nat

/-- The validate tags of history.Input: action required and one of
list/get/delete/clear; limit at most 100; the min=0 bounds are automatic. -/
def validHistoryInput (i : HistoryInput) : Bool :=
  (i.action == "list" || i.action == "get" || i.action == "delete" || i.action == "clear")
    && decide (i.limit ≤ 100)

/-- The observable outcome of one history action. -/
inductive HistoryResult where
  | listing (total : Nat) (limit : Nat) (offset : Nat) (executions : List ToolExecution)
  | gotten (exec : ToolExecution)
  | deleted (id : Nat)
  | cleared
deriving DecidableEq

/-- HistoryHandler (history.go lines 43-98): validate, then dispatch on the
action; list substitutes the default limit 10 when the caller passes 0. Error
strings are the fixed preludes of the wrapped Go errors. -/
def historyHandler (db : DB) (now : Nat) (input : HistoryInput) :
    Except String (HistoryResult × DB) :=
  if validHistoryInput input = false then Except.error "validation error"
  else if input.action == "list" then
    let limit := if input.limit == 0 then (10 : Nat) else input.limit
    let q := getToolExecutions db limit input.offset
    Except.ok (HistoryResult.listing q.2 limit input.offset q.1, db)
  else if input.action == "get" then
    if input.id == 0 then Except.error "id is required for get action"
    else
      match getToolExecution db input.id with
      | none => Except.error "execution not found"
      | some exec => Except.ok (HistoryResult.gotten exec, db)
  else if input.action == "delete" then
    if input.id == 0 then Except.error "id is required for delete action"
    else Except.ok (HistoryResult.deleted input.id, deleteToolExecution db input.id now)
  else
    Except.ok (HistoryResult.cleared, deleteAllToolExecutions db now)

/-- A row template with empty payload fields, used to build witness states. -/
def blankExec : ToolExecution :=
  { id := 0, createdAt := 0, deletedAt := none, sessionID := "", toolName := "nikto"
    inputJSON := "", outputJSON := "", errorMessage := "", durationMs := 0, success := true }

def wRow1 : ToolExecution := { blankExec with id := 1, createdAt := 3 }

def wRow2 : ToolExecution := { blankExec with id := 2, createdAt := 7 }

/-- Witness ledger with two active rows created at distinct instants. -/
def wLedger : DB := { records := [wRow1, wRow2], nextId := 3 }

/-- Witness handler whose error has a non-empty message. -/
def wHandlerFail : Unit → Option String × String × Option String :=
  fun _ => (none, "", some "boom")

def wHistListInput : HistoryInput := { action := "list", id := 0, limit := 0, offset := 0 }

def wHistBigInput : HistoryInput := { action := "list", id := 0, limit := 101, offset := 0 }

/-- Ledger with two active rows sharing one creation instant, for the
ordering counterexample. -/
def wTieLedger : DB :=
  { records :=
      [{ blankExec with id := 1, createdAt := 5 }, { blankExec with id := 2, createdAt := 5 }]
    nextId := 3 }

/-! ## Theorems about pagination -/

theorem splitLinesList_ne_nil (l : List Char) : splitLinesList l ≠ [] := by
  cases l with
  | nil => simp [splitLinesList]
  | cons c rest =>
    simp only [splitLinesList]
    by_cases h : c = '\n' <;> simp [h]

theorem splitLines_length_pos (s : String) : 0 < (splitLines s).length := by
  rw [splitLines, List.length_map]
  exact List.length_pos.mpr (splitLinesList_ne_nil s.data)

/-- C7: calling the pagination function with maxLines = 0 behaves identically
to calling it with the fixed default of 200 lines; a zero limit is never
treated as show-nothing. -/
theorem pagination_zero_uses_default (output : String) (offset : Nat) :
    applyPagination output 0 offset = applyPagination output 200 offset := rfl

/-- C2 counterexample: on the three-line text with maxLines = 10 and
offset = 100 (offset beyond the total line count), the code does not return an
empty window: the window holds all three lines, and the output carries a
banner claiming lines 101-103 are shown. The repository test
TestApplyPagination_OffsetBeyondEnd asserts this non-empty behaviour. -/
theorem pagination_offset_overrun_counterexample :
    (paginationPair "a\nb\nc" 10 100).1 = ["a", "b", "c"] ∧
    applyPagination "a\nb\nc" 10 100 =
      "[Showing lines 101-103 of 3 lines. Use offset parameter to view more.]\n\na\nb\nc" := by
  constructor <;> decide

/-- C2 (amended): for maxLines > 0 and offset at or beyond the total line
count, the offset branch is skipped and pagination falls back to the
offset-zero window: the first min(maxLines, totalLines) lines, prefixed by the
banner computed from the requested offset; no error occurs. -/
theorem pagination_offset_overrun (output : String) (maxLines offset : Nat)
    (hml : 0 < maxLines) (hoff : (splitLines output).length ≤ offset) :
    applyPagination output maxLines offset =
      "[Showing lines " ++ toString (offset + 1) ++ "-" ++
        toString (offset + min maxLines (splitLines output).length) ++ " of " ++
        toString (splitLines output).length ++
        " lines. Use offset parameter to view more.]\n\n" ++
      String.intercalate "\n" ((splitLines output).take maxLines) := by
  have hne : maxLines ≠ 0 := Nat.pos_iff_ne_zero.mp hml
  have heff : effMaxLines maxLines = maxLines := if_neg hne
  have hpos := splitLines_length_pos output
  have hoffpos : 0 < offset := lt_of_lt_of_le hpos hoff
  have hc1 : ¬(0 < offset ∧ offset < (splitLines output).length) := by
    rintro ⟨-, hlt⟩
    exact absurd hlt (not_lt.mpr hoff)
  have hnlt : ¬ offset < (splitLines output).length := not_lt.mpr hoff
  by_cases h2 : maxLines < (splitLines output).length
  · simp [applyPagination, paginationPair, heff, hc1, hnlt, h2, Nat.min_eq_left (le_of_lt h2)]
  · simp [applyPagination, paginationPair, heff, hc1, hnlt, h2, hoffpos,
      Nat.min_eq_right (le_of_not_lt h2), List.take_of_length_le (le_of_not_lt h2)]

/-- C2 witness: the amended statement at the concrete three-line text,
maxLines = 10, offset = 100. -/
theorem pagination_offset_overrun_witness :
    0 < 10 ∧ (splitLines "a\nb\nc").length ≤ 100 ∧
    applyPagination "x\ny\nz" 10 100 =
      "[Showing lines 101-103 of 3 lines. Use offset parameter to view more.]\n\nx\ny\nz" :=
  ⟨by decide, by decide,
    (pagination_offset_overrun "x\ny\nz" 10 100 (by decide) (by decide)).trans (by decide)⟩

/-- C6: whenever the window is truncated or offset > 0, the returned text is
the one-line banner stating the range offset+1 through offset plus the window
length and the total line count, followed by the window. -/
theorem pagination_banner_format (output : String) (maxLines offset : Nat)
    (h : (paginationPair output maxLines offset).2 = true ∨ 0 < offset) :
    applyPagination output maxLines offset =
      "[Showing lines " ++ toString (offset + 1) ++ "-" ++
        toString (offset + (paginationPair output maxLines offset).1.length) ++ " of " ++
        toString (splitLines output).length ++
        " lines. Use offset parameter to view more.]\n\n" ++
      String.intercalate "\n" (paginationPair output maxLines offset).1 := by
  unfold applyPagination
  rw [if_pos h]

set_option maxRecDepth 8000 in
/-- C6 witness (end-to-end scenario D): paginating a 50-line blob with
maxLines = 10 and offset = 20 produces the banner reading lines 21-30 of 50
total, followed by lines 21 through 30. -/
theorem pagination_banner_format_witness :
    ((paginationPair wBlob50 10 20).2 = true ∨ 0 < 20) ∧
    applyPagination wBlob50 10 20 =
      "[Showing lines 21-30 of 50 lines. Use offset parameter to view more.]\n\n" ++
      "L20\nL21\nL22\nL23\nL24\nL25\nL26\nL27\nL28\nL29" :=
  ⟨Or.inr (by decide),
    (pagination_banner_format wBlob50 10 20 (Or.inr (by decide))).trans (by decide)⟩

/-! ## String containment helpers -/

theorem strAppend_assoc : ∀ (a b c : String), a ++ b ++ c = a ++ (b ++ c)
  | ⟨a⟩, ⟨b⟩, ⟨c⟩ => congrArg String.mk (List.append_assoc a b c)

theorem strNil_append : ∀ (s : String), "" ++ s = s
  | ⟨_⟩ => congrArg String.mk (List.nil_append _)

theorem strAppend_nil : ∀ (s : String), s ++ "" = s
  | ⟨_⟩ => congrArg String.mk (List.append_nil _)

theorem containsStr_self (s : String) : ContainsStr s s :=
  ⟨"", "", by rw [strNil_append, strAppend_nil]⟩

theorem containsStr_appendL (a : String) {s pat : String} (h : ContainsStr s pat) :
    ContainsStr (a ++ s) pat := by
  obtain ⟨p, q, rfl⟩ := h
  exact ⟨a ++ p, q, by simp [strAppend_assoc]⟩

theorem containsStr_appendR (b : String) {s pat : String} (h : ContainsStr s pat) :
    ContainsStr (s ++ b) pat := by
  obtain ⟨p, q, rfl⟩ := h
  exact ⟨p, q ++ b, by simp [strAppend_assoc]⟩

theorem containsStr_trans {s t pat : String} (hst : ContainsStr s t) (htp : ContainsStr t pat) :
    ContainsStr s pat := by
  obtain ⟨p, q, rfl⟩ := hst
  obtain ⟨p2, q2, rfl⟩ := htp
  exact ⟨p ++ p2, q2 ++ q, by simp [strAppend_assoc]⟩

theorem containsStr_concatMap {α : Type} (f : α → String) {a : α} :
    ∀ {l : List α}, a ∈ l → ContainsStr (concatMap f l) (f a) := by
  intro l h
  induction l with
  | nil => cases h
  | cons x xs ih =>
    rcases List.mem_cons.mp h with rfl | hmem
    · exact ⟨"", concatMap f xs, by rw [strNil_append]; rfl⟩
    · exact containsStr_appendL (f x) (ih hmem)

theorem mergeResults_contains_summaryLine {r : ScannerResult} (targetURL dateStr : String)
    {results : List ScannerResult} (h : r ∈ results) :
    ContainsStr (mergeResults targetURL dateStr results) (summaryLine r) := by
  unfold mergeResults
  exact containsStr_appendR _ (containsStr_appendR _
    (containsStr_appendR _ (containsStr_appendL _ (containsStr_concatMap summaryLine h))))

theorem mergeResults_contains_sectionFor {r : ScannerResult} (targetURL dateStr : String)
    {results : List ScannerResult} (h : r ∈ results) :
    ContainsStr (mergeResults targetURL dateStr results) (sectionFor r) := by
  unfold mergeResults
  exact containsStr_appendR _ (containsStr_appendL _ (containsStr_concatMap sectionFor h))

theorem sectionFor_contains_error {r : ScannerResult} {msg : String} (h : r.error = some msg) :
    ContainsStr (sectionFor r) ("ERROR: " ++ msg ++ "\n\n") := by
  simp only [sectionFor, h]
  apply containsStr_appendR
  apply containsStr_appendL
  exact containsStr_appendR _ (containsStr_self _)

theorem sectionFor_contains_output {r : ScannerResult} {msg : String} (h : r.error = some msg)
    (ho : ¬ r.output = "") : ContainsStr (sectionFor r) ("Output:\n" ++ r.output ++ "\n") := by
  simp only [sectionFor, h, if_neg ho]
  apply containsStr_appendR
  apply containsStr_appendL
  exact containsStr_appendL _ (containsStr_self _)

/-! ## Theorems about the merge step -/

set_option maxRecDepth 8000 in
/-- C3 counterexample: the merge embeds the wall-clock generation timestamp
(time.Now() at wrapper.go line 240) in the Date line, so merging the same
fixed list of records twice, at two different instants, does not yield
byte-identical report text. -/
theorem merge_time_dependence_counterexample :
    mergeResults "http://localhost:80" "Thu, 01 Jan 2026 00:00:00 UTC" [] ≠
      mergeResults "http://localhost:80" "Thu, 01 Jan 2026 00:00:01 UTC" [] := by
  decide

/-- C3 (amended): the merge is a deterministic function of the target, the
generation timestamp and the record list; the report decomposes as a prefix
determined by the target, then the timestamp, then a suffix determined by the
record list, so two merges of the same list with the same timestamp are
byte-identical and otherwise differ only in the Date segment. -/
theorem mergeResults_decomposition (targetURL dateStr : String)
    (results : List ScannerResult) :
    mergeResults targetURL dateStr results =
      mergeBeforeDate targetURL ++ dateStr ++ mergeAfterDate results := by
  simp [mergeResults, mergeHeader, mergeBeforeDate, mergeAfterDate, strAppend_assoc]

/-! ## Theorems about the orchestrator and the aggregate handler -/

/-- C1: with k available scanners out of N configured, the orchestrator
launches exactly k scan operations and collects exactly k records, one per
available scanner carrying that scanner name, output and error; with k = 0,
registration fails with the availability error before any fan-out. -/
theorem orchestrator_fanout (scanners : List Scanner) (params : ScanParams)
    (durOf : String → Nat) (results : List ScannerResult)
    (hrun : RunCollects (availableOf scanners) params durOf results) :
    results.length = (availableOf scanners).length ∧
    (∀ r ∈ results, ∃ s, s ∈ availableOf scanners ∧ r = scanRecord params durOf s) ∧
    ((availableOf scanners).length = 0 →
      registerFilter scanners = Except.error "no scanner binaries available") ∧
    (0 < (availableOf scanners).length →
      registerFilter scanners = Except.ok (availableOf scanners)) := by
  refine ⟨?_, ?_, ?_, ?_⟩
  · simpa using hrun.length_eq
  · intro r hr
    have hm : r ∈ (availableOf scanners).map (scanRecord params durOf) := hrun.mem_iff.mp hr
    obtain ⟨s, hs, rfl⟩ := List.mem_map.mp hm
    exact ⟨s, hs, rfl⟩
  · intro h0
    have he : (availableOf scanners).isEmpty = true := by
      simpa [List.isEmpty_iff, List.length_eq_zero] using h0
    simp [registerFilter, he]
  · intro hpos
    have he : ¬ (availableOf scanners).isEmpty = true := by
      simp only [List.isEmpty_iff]
      intro hnil
      rw [hnil] at hpos
      exact absurd hpos (by simp)
    simp [registerFilter, he]

/-- C1 witness: two configured scanners of which one is available; the run
collects exactly one record and registration succeeds with the one scanner. -/
theorem orchestrator_fanout_witness :
    RunCollects (availableOf [wScanner1, wScanner2]) wParams wDurOf wCollected ∧
    wCollected.length = 1 ∧
    registerFilter [wScanner1, wScanner2] = Except.ok [wScanner1] := by
  have h := orchestrator_fanout [wScanner1, wScanner2] wParams wDurOf wCollected
    (List.Perm.refl _)
  refine ⟨List.Perm.refl _, ?_, ?_⟩
  · rw [h.1]; rfl
  · have h4 := h.2.2.2 (by decide)
    exact h4.trans (by rfl)

/-- C5: when validation passes, the aggregate handler returns the merged,
paginated report and no error even when scanners report failures; every
failed scanner shows as a FAILED summary line and a section holding its error
message plus any leftover output; the handler errors only when validation
fails. -/
theorem fullscan_failure_semantics (hostOk : String → Bool) (dateStr : String)
    (input : Input) (results : List ScannerResult) :
    (validInput hostOk input = true →
      fullScanHandler hostOk dateStr input results =
        Except.ok (applyPagination (mergeResults (targetOf input) dateStr results)
          input.maxLines input.offset) ∧
      ∀ r ∈ results, ∀ msg, r.error = some msg →
        statusOf r = "FAILED" ∧
        ContainsStr (mergeResults (targetOf input) dateStr results) (summaryLine r) ∧
        ContainsStr (mergeResults (targetOf input) dateStr results)
          ("ERROR: " ++ msg ++ "\n\n") ∧
        (¬ r.output = "" →
          ContainsStr (mergeResults (targetOf input) dateStr results)
            ("Output:\n" ++ r.output ++ "\n"))) ∧
    (validInput hostOk input = false →
      fullScanHandler hostOk dateStr input results = Except.error "validation error") := by
  constructor
  · intro hv
    constructor
    · simp [fullScanHandler, hv]
    · intro r hr msg herr
      refine ⟨by simp [statusOf, herr], mergeResults_contains_summaryLine _ _ hr, ?_, ?_⟩
      · exact containsStr_trans (mergeResults_contains_sectionFor _ _ hr)
          (sectionFor_contains_error herr)
      · intro ho
        exact containsStr_trans (mergeResults_contains_sectionFor _ _ hr)
          (sectionFor_contains_output herr ho)
  · intro hv
    simp [fullScanHandler, hv]

/-- C5 witness: a valid input and one failed scanner with leftover output;
the handler returns the report, the summary line reads FAILED, and the error
message and leftover output both appear in the merged report. -/
theorem fullscan_failure_semantics_witness :
    validInput (fun _ => true) wScanInput = true ∧
    wFailResult.error = some "connection timeout" ∧
    fullScanHandler (fun _ => true) "D" wScanInput [wFailResult] =
      Except.ok (applyPagination (mergeResults (targetOf wScanInput) "D" [wFailResult]) 0 0) ∧
    statusOf wFailResult = "FAILED" ∧
    ContainsStr (mergeResults (targetOf wScanInput) "D" [wFailResult])
      ("ERROR: " ++ "connection timeout" ++ "\n\n") ∧
    ContainsStr (mergeResults (targetOf wScanInput) "D" [wFailResult])
      ("Output:\n" ++ "leftover output" ++ "\n") := by
  have h := (fullscan_failure_semantics (fun _ => true) "D" wScanInput [wFailResult]).1
    (by decide)
  have h2 := h.2 wFailResult (by simp) "connection timeout" rfl
  exact ⟨by decide, rfl, h.1, h2.1, h2.2.2.1, h2.2.2.2 (by decide)⟩

/-! ## Theorems about the logging interceptor -/

/-- C4 counterexample: a wrapped handler returning a non-nil error whose text
is empty yields a record with success = false and an empty error message, so
the invariant success == (error message is empty) fails on the code, which
copies the error text verbatim without guarding against emptiness. -/
theorem interceptor_empty_error_counterexample :
    (wrapToolHandler "" "full_scan" "in1" 5 (fun _ => (none, "", some ""))).2.success = false ∧
    (wrapToolHandler "" "full_scan" "in1" 5 (fun _ => (none, "", some ""))).2.errorMessage = "" ∧
    ¬ ((wrapToolHandler "" "full_scan" "in1" 5 (fun _ => (none, "", some ""))).2.success = true ↔
       (wrapToolHandler "" "full_scan" "in1" 5 (fun _ => (none, "", some ""))).2.errorMessage = "") := by
  refine ⟨rfl, rfl, ?_⟩
  intro h
  exact absurd (h.mpr rfl) (by decide)

/-- C4 (amended): the record built by the interceptor always satisfies
success = (the wrapped handler returned no error), and the interceptor passes
the handler triple through unchanged; the invariant success == (error message
is empty) holds provided the returned error, when present, has non-empty
text (the interceptor copies the text verbatim). -/
theorem interceptor_success_invariant (sessionID toolName inputJSON : String)
    (durationMs : Nat) (handler : Unit → Option String × String × Option String)
    (hmsg : (handler ()).2.2 ≠ some "") :
    (wrapToolHandler sessionID toolName inputJSON durationMs handler).1 = handler () ∧
    (wrapToolHandler sessionID toolName inputJSON durationMs handler).2.success =
      ((handler ()).2.2).isNone ∧
    ((wrapToolHandler sessionID toolName inputJSON durationMs handler).2.success = true ↔
      (wrapToolHandler sessionID toolName inputJSON durationMs handler).2.errorMessage = "") := by
  refine ⟨rfl, ?_, ?_⟩
  · rcases herr : (handler ()).2.2 with _ | e
    · rcases hres : (handler ()).1 with _ | m <;>
        simp [wrapToolHandler, wrapBuildRecord, herr, hres]
    · simp [wrapToolHandler, wrapBuildRecord, herr]
  · rcases herr : (handler ()).2.2 with _ | e
    · rcases hres : (handler ()).1 with _ | m <;>
        simp [wrapToolHandler, wrapBuildRecord, herr, hres]
    · have he : ¬ e = "" := fun hc => hmsg (by rw [herr, hc])
      simp [wrapToolHandler, wrapBuildRecord, herr, he]

/-- C4 witness: the amended invariant at a failing handler whose error text
is the non-empty string boom. -/
theorem interceptor_success_invariant_witness :
    (wHandlerFail ()).2.2 ≠ some "" ∧
    (wrapToolHandler "s" "nikto" "in2" 7 wHandlerFail).2.success = false ∧
    ((wrapToolHandler "s" "nikto" "in2" 7 wHandlerFail).2.success = true ↔
      (wrapToolHandler "s" "nikto" "in2" 7 wHandlerFail).2.errorMessage = "") :=
  ⟨by decide, rfl,
    (interceptor_success_invariant "s" "nikto" "in2" 7 wHandlerFail (by decide)).2.2⟩

/-! ## Theorems about the history tool -/

/-- C10: for the history list action, a caller-supplied limit of 0 is
replaced by the effective limit 10, so at most 10 executions are returned;
validation rejects any request whose limit exceeds 100. -/
theorem history_list_default_limit (db : DB) (now : Nat) (input : HistoryInput) :
    (input.action = "list" → input.limit = 0 →
      historyHandler db now input =
        Except.ok (HistoryResult.listing (getToolExecutions db 10 input.offset).2 10
          input.offset (getToolExecutions db 10 input.offset).1, db) ∧
      (getToolExecutions db 10 input.offset).1.length ≤ 10) ∧
    (100 < input.limit → historyHandler db now input = Except.error "validation error") := by
  constructor
  · intro ha hl
    constructor
    · simp [historyHandler, validHistoryInput, ha, hl]
    · simp only [getToolExecutions]
      simp only [if_neg (by decide : ¬ (10 : Nat) = 0)]
      exact List.length_take_le 10 _
  · intro hl
    have hv : validHistoryInput input = false := by
      simp [validHistoryInput, Nat.not_le.mpr hl]
    simp [historyHandler, hv]

/-- C10 witness: the list action on the two-row witness ledger with limit 0
returns effective limit 10 and at most 10 rows; limit 101 is rejected. -/
theorem history_list_default_limit_witness :
    (getToolExecutions wLedger 10 0).2 = 2 ∧
    (historyHandler wLedger 0 wHistListInput =
      Except.ok (HistoryResult.listing (getToolExecutions wLedger 10 0).2 10 0
        (getToolExecutions wLedger 10 0).1, wLedger) ∧
      (getToolExecutions wLedger 10 0).1.length ≤ 10) ∧
    historyHandler wLedger 0 wHistBigInput = Except.error "validation error" :=
  ⟨by decide,
    (history_list_default_limit wLedger 0 wHistListInput).1 rfl rfl,
    (history_list_default_limit wLedger 0 wHistBigInput).2 (by decide)⟩

/-! ## Theorems about the execution ledger -/

theorem insertByCreatedDesc_perm (r : ToolExecution) (l : List ToolExecution) :
    (insertByCreatedDesc r l).Perm (r :: l) := by
  induction l with
  | nil => exact List.Perm.refl _
  | cons x xs ih =>
    by_cases h : x.createdAt ≤ r.createdAt
    · simp only [insertByCreatedDesc, if_pos h]
      exact List.Perm.refl _
    · simp only [insertByCreatedDesc, if_neg h]
      exact (ih.cons x).trans (List.Perm.swap r x xs)

theorem sortByCreatedDesc_perm (l : List ToolExecution) :
    (sortByCreatedDesc l).Perm l := by
  induction l with
  | nil => exact List.Perm.refl _
  | cons x xs ih =>
    exact (insertByCreatedDesc_perm x (sortByCreatedDesc xs)).trans (ih.cons x)

theorem insertByCreatedDesc_pairwise (r : ToolExecution) (l : List ToolExecution)
    (hl : l.Pairwise (fun a b => b.createdAt ≤ a.createdAt)) :
    (insertByCreatedDesc r l).Pairwise (fun a b => b.createdAt ≤ a.createdAt) := by
  induction l with
  | nil => simp [insertByCreatedDesc]
  | cons x xs ih =>
    rw [List.pairwise_cons] at hl
    by_cases h : x.createdAt ≤ r.createdAt
    · simp only [insertByCreatedDesc, if_pos h]
      rw [List.pairwise_cons]
      refine ⟨?_, List.pairwise_cons.mpr hl⟩
      intro b hb
      rcases List.mem_cons.mp hb with rfl | hbs
      · exact h
      · exact le_trans (hl.1 b hbs) h
    · simp only [insertByCreatedDesc, if_neg h]
      rw [List.pairwise_cons]
      refine ⟨?_, ih hl.2⟩
      intro b hb
      rcases List.mem_cons.mp ((insertByCreatedDesc_perm r xs).mem_iff.mp hb) with rfl | hbs
      · exact le_of_lt (Nat.lt_of_not_le h)
      · exact hl.1 b hbs

theorem sortByCreatedDesc_pairwise (l : List ToolExecution) :
    (sortByCreatedDesc l).Pairwise (fun a b => b.createdAt ≤ a.createdAt) := by
  induction l with
  | nil => simp [sortByCreatedDesc]
  | cons x xs ih => exact insertByCreatedDesc_pairwise x (sortByCreatedDesc xs) ih

theorem getToolExecutions_sublist (db : DB) (limit offset : Nat) :
    (getToolExecutions db limit offset).1.Sublist (sortByCreatedDesc (activeRecords db)) := by
  simp only [getToolExecutions]
  by_cases h : limit = 0
  · simp only [if_pos h]
    exact List.drop_sublist _ _
  · simp only [if_neg h]
    exact (List.take_sublist _ _).trans (List.drop_sublist _ _)

/-- C8 (amended): the list operation returns non-deleted records ordered by
creation time descending, non-strictly; the query orders only by created_at
with no identifier tie-break, so rows with equal creation timestamps come
back in storage (identifier-ascending) order, and the order is strictly
descending whenever the non-deleted creation timestamps are pairwise
distinct (in particular for records inserted at strictly increasing
instants). -/
theorem ledger_list_ordering (db : DB) (limit offset : Nat) :
    (getToolExecutions db limit offset).1.Pairwise (fun a b => b.createdAt ≤ a.createdAt) ∧
    ((activeRecords db).Pairwise (fun a b => a.createdAt ≠ b.createdAt) →
      (getToolExecutions db limit offset).1.Pairwise
        (fun a b => b.createdAt < a.createdAt)) := by
  have hsorted := sortByCreatedDesc_pairwise (activeRecords db)
  have hsub := getToolExecutions_sublist db limit offset
  constructor
  · exact hsorted.sublist hsub
  · intro hne
    have hneS : (sortByCreatedDesc (activeRecords db)).Pairwise
        (fun a b => a.createdAt ≠ b.createdAt) :=
      ((sortByCreatedDesc_perm (activeRecords db)).pairwise_iff
        (fun h => Ne.symm h)).mpr hne
    have hstrict : (sortByCreatedDesc (activeRecords db)).Pairwise
        (fun a b => b.createdAt < a.createdAt) := by
      have hand := hsorted.and hneS
      exact hand.imp (fun hab => lt_of_le_of_ne hab.1 (Ne.symm hab.2))
    exact hstrict.sublist hsub

/-- C8 counterexample: two rows created at the same instant with identifiers
1 then 2; the list output is neither strictly descending in creation time nor
tie-broken by identifier descending — the rows come back in identifier
ascending order, as the query orders only by created_at. -/
theorem ledger_tie_order_counterexample :
    (getToolExecutions wTieLedger 0 0).1.map (·.id) = [1, 2] ∧
    (getToolExecutions wTieLedger 0 0).1.map (·.createdAt) = [5, 5] ∧
    ¬ (getToolExecutions wTieLedger 0 0).1.Pairwise
        (fun a b => b.createdAt < a.createdAt ∨
          (b.createdAt = a.createdAt ∧ b.id < a.id)) := by
  refine ⟨by decide, by decide, ?_⟩
  intro h
  have hlist : (getToolExecutions wTieLedger 0 0).1 =
      [{ blankExec with id := 1, createdAt := 5 },
       { blankExec with id := 2, createdAt := 5 }] := by decide
  rw [hlist] at h
  rcases List.pairwise_cons.mp h with ⟨h1, -⟩
  have := h1 _ (List.mem_cons_self _ _)
  rcases this with hlt | ⟨-, hid⟩
  · exact absurd hlt (by decide)
  · exact absurd hid (by decide)

/-- C8 witness: the two-row witness ledger with distinct creation instants 3
then 7; the list output is strictly descending in creation time, returning
identifiers in the order 2 then 1. -/
theorem ledger_list_ordering_witness :
    (activeRecords wLedger).Pairwise (fun a b => a.createdAt ≠ b.createdAt) ∧
    (getToolExecutions wLedger 0 0).1.Pairwise (fun a b => b.createdAt < a.createdAt) ∧
    (getToolExecutions wLedger 0 0).1.map (·.id) = [2, 1] := by
  have hd : (activeRecords wLedger).Pairwise (fun a b => a.createdAt ≠ b.createdAt) := by
    simp [activeRecords, wLedger, wRow1, wRow2, blankExec, List.pairwise_cons]
  exact ⟨hd, (ledger_list_ordering wLedger 0 0).2 hd, by decide⟩

theorem delete_active_id_ne (db : DB) (id now : Nat) :
    ∀ x ∈ activeRecords (deleteToolExecution db id now), x.id ≠ id := by
  intro x hx
  simp only [activeRecords, deleteToolExecution, List.mem_filter] at hx
  obtain ⟨hmem, hact⟩ := hx
  obtain ⟨r0, hr0, rfl⟩ := List.mem_map.mp hmem
  by_cases hc : (r0.id == id && r0.deletedAt.isNone) = true
  · rw [if_pos hc] at hact
    simp at hact
  · rw [if_neg hc]
    intro hid
    rw [if_neg hc] at hact
    exact hc (by simp [hid, hact])

theorem map_noop_of_no_id (id now : Nat) :
    ∀ (xs : List ToolExecution), (∀ y ∈ xs, y.id ≠ id) →
    xs.map (fun y => if y.id == id && y.deletedAt.isNone
      then { y with deletedAt := some now } else y) = xs := by
  intro xs h
  induction xs with
  | nil => rfl
  | cons y ys ih =>
    have hy : (y.id == id) = false := by
      simp [h y (List.mem_cons_self y ys)]
    simp only [List.map_cons, hy, Bool.false_and, if_neg Bool.false_ne_true]
    rw [ih (fun z hz => h z (List.mem_cons_of_mem _ hz))]

theorem filter_length_delete (id now : Nat) :
    ∀ (l : List ToolExecution), (l.map (·.id)).Nodup →
    ∀ r ∈ l, r.id = id → r.deletedAt.isNone = true →
    ((l.map (fun x => if x.id == id && x.deletedAt.isNone
        then { x with deletedAt := some now } else x)).filter (·.deletedAt.isNone)).length + 1 =
      (l.filter (·.deletedAt.isNone)).length := by
  intro l
  induction l with
  | nil => intro _ r hr; cases hr
  | cons x xs ih =>
    intro hnd r hr hid hact
    rw [List.map_cons] at hnd
    have hnd2 := List.nodup_cons.mp hnd
    rcases List.mem_cons.mp hr with rfl | hrs
    · have hcond : (r.id == id && r.deletedAt.isNone) = true := by simp [hid, hact]
      have hnotin : ∀ y ∈ xs, y.id ≠ id := by
        intro y hy hyid
        exact hnd2.1 (List.mem_map.mpr ⟨y, hy, by rw [hyid, hid]⟩)
      rw [List.map_cons, map_noop_of_no_id id now xs hnotin, if_pos hcond]
      simp [List.filter_cons, hact]
    · have hxne : x.id ≠ id := by
        intro hxe
        exact hnd2.1 (List.mem_map.mpr ⟨r, hrs, by rw [hid, hxe]⟩)
      have hhead : (if (x.id == id && x.deletedAt.isNone) = true
          then { x with deletedAt := some now } else x) = x := by
        simp [hxne]
      have hrec := ih hnd2.2 r hrs hid hact
      rw [List.map_cons, hhead, List.filter_cons, List.filter_cons]
      by_cases hpx : x.deletedAt.isNone = true
      · rw [if_pos hpx, if_pos hpx]
        simp only [List.length_cons]
        omega
      · rw [if_neg hpx, if_neg hpx]
        exact hrec

theorem mem_getToolExecutions {db : DB} {limit offset : Nat} {x : ToolExecution}
    (hx : x ∈ (getToolExecutions db limit offset).1) : x ∈ activeRecords db :=
  (sortByCreatedDesc_perm _).mem_iff.mp ((getToolExecutions_sublist db limit offset).subset hx)

/-- C9: after a successful soft delete of a present identifier, lookup by that
identifier reports not-found, the list total drops by exactly one, the record
is excluded from the list, by-session and by-tool reads, and the identifier is
never reused: any later create assigns an identifier different from every
stored one. -/
theorem ledger_soft_delete (db : DB) (id now : Nat) (r : ToolExecution)
    (hwf : WFDB db) (hget : getToolExecution db id = some r) :
    getToolExecution (deleteToolExecution db id now) id = none ∧
    (getToolExecutions (deleteToolExecution db id now) 0 0).2 + 1 =
      (getToolExecutions db 0 0).2 ∧
    (∀ limit offset,
      ∀ x ∈ (getToolExecutions (deleteToolExecution db id now) limit offset).1, x.id ≠ id) ∧
    (∀ sid, ∀ x ∈ getToolExecutionsBySession (deleteToolExecution db id now) sid,
      x.id ≠ id) ∧
    (∀ tool lim, ∀ x ∈ getToolExecutionsByTool (deleteToolExecution db id now) tool lim,
      x.id ≠ id) ∧
    (∀ exec t, ∀ x ∈ (deleteToolExecution db id now).records,
      (createToolExecution (deleteToolExecution db id now) exec t).2 ≠ x.id) := by
  have hrmem : r ∈ activeRecords db := List.mem_of_find?_eq_some hget
  have hrid : r.id = id := by simpa using List.find?_some hget
  have hrrec : r ∈ db.records := (List.mem_filter.mp hrmem).1
  have hract : r.deletedAt.isNone = true := by simpa using (List.mem_filter.mp hrmem).2
  refine ⟨?_, ?_, ?_, ?_, ?_, ?_⟩
  · apply List.find?_eq_none.mpr
    intro x hx
    simpa using delete_active_id_ne db id now x hx
  · simp only [getToolExecutions]
    exact filter_length_delete id now db.records hwf.2 r hrrec hrid hract
  · intro limit offset x hx
    exact delete_active_id_ne db id now x (mem_getToolExecutions hx)
  · intro sid x hx
    have h1 := (sortByCreatedDesc_perm _).mem_iff.mp hx
    exact delete_active_id_ne db id now x (List.mem_filter.mp h1).1
  · intro tool lim x hx
    simp only [getToolExecutionsByTool] at hx
    have hx2 : x ∈ sortByCreatedDesc
        ((activeRecords (deleteToolExecution db id now)).filter (·.toolName == tool)) := by
      by_cases h : lim = 0
      · simpa [h] using hx
      · rw [if_neg h] at hx
        exact List.take_subset _ _ hx
    have h1 := (sortByCreatedDesc_perm _).mem_iff.mp hx2
    exact delete_active_id_ne db id now x (List.mem_filter.mp h1).1
  · intro exec t x hx
    obtain ⟨r0, hr0, rfl⟩ := List.mem_map.mp hx
    have hid0 : (if (r0.id == id && r0.deletedAt.isNone) = true
        then { r0 with deletedAt := some now } else r0).id = r0.id := by
      by_cases hc : (r0.id == id && r0.deletedAt.isNone) = true <;> simp [hc]
    show db.nextId ≠ _
    rw [hid0]
    exact Nat.ne_of_gt (hwf.1 r0 hr0)

/-- C9 witness: deleting identifier 1 from the two-row witness ledger: lookup
becomes not-found and the list total drops from 2 to 1. -/
theorem ledger_soft_delete_witness :
    WFDB wLedger ∧
    getToolExecution wLedger 1 = some wRow1 ∧
    getToolExecution (deleteToolExecution wLedger 1 9) 1 = none ∧
    (getToolExecutions (deleteToolExecution wLedger 1 9) 0 0).2 + 1 =
      (getToolExecutions wLedger 0 0).2 := by
  have hwf : WFDB wLedger := ⟨by decide, by decide⟩
  have h := ledger_soft_delete wLedger 1 9 wRow1 hwf (by decide)
  exact ⟨hwf, by decide, h.1, h.2.1⟩
